import Mathlib

/-!
Shallow embedding of the NiuTrans translation plugin (`src/niutrans.py`).

The embedding models:
* the codepoint-lexicographic string ordering used by Python's `sorted`;
* the MD5-based request signer `NiuTransPlugin.generate_auth_str`;
* the pydantic response model `TransResponse` (field `from` required,
  all other fields optional with empty-string defaults, JSON `null`
  parsing to `None`);
* the two operations `verify` and `translate_text`, parameterised by the
  HTTP response the remote service returns (the HTTP transport itself is
  external to the repository).
-/

/-! ### Python string ordering (codepoint lexicographic) -/

/-- Python's `<` on strings compares the underlying code-point sequences
lexicographically: at the first differing position the code points decide,
and a strict prefix is smaller. -/
def codeLt : List Char → List Char → Bool
  | _, [] => false
  | [], _ :: _ => true
  | a :: as, b :: bs =>
    if a.toNat < b.toNat then true
    else if b.toNat < a.toNat then false
    else codeLt as bs

/-- Python's `<` on strings. -/
def pyStrLt (s t : String) : Bool := codeLt s.data t.data

/-- Python's `<=` on strings (total order: `s <= t ↔ ¬ t < s`). -/
def pyStrLe (s t : String) : Bool := ! pyStrLt t s

/-- The comparison used by `sorted(..., key=lambda x: x[0])`: pairs are
compared by their first component (the parameter key). -/
def keyLE (a b : String × String) : Prop := pyStrLe a.1 b.1 = true

instance : DecidableRel keyLE := fun a b => inferInstanceAs (Decidable (_ = true))

/-- Strict key order: the first key is strictly smaller in Python's
codepoint-lexicographic string order. -/
def keyLT (a b : String × String) : Prop := pyStrLt a.1 b.1 = true

instance : DecidableRel keyLT := fun a b => inferInstanceAs (Decidable (_ = true))

theorem codeLt_irrefl : ∀ as : List Char, codeLt as as = false
  | [] => rfl
  | _ :: as => by simp [codeLt, codeLt_irrefl as]

theorem codeLt_asymm : ∀ {as bs : List Char}, codeLt as bs = true → codeLt bs as = false
  | as, [], h => by cases as <;> simp [codeLt] at h
  | [], _ :: _, _ => rfl
  | a :: as, b :: bs, h => by
    simp only [codeLt] at h ⊢
    by_cases hab : a.toNat < b.toNat
    · have : ¬ b.toNat < a.toNat := by omega
      simp [hab, this]
    · by_cases hba : b.toNat < a.toNat
      · simp [hab, hba] at h
      · simp only [hab, hba, if_neg, if_false] at h ⊢
        simpa using codeLt_asymm h

theorem codeLt_trans : ∀ {as bs cs : List Char},
    codeLt as bs = true → codeLt bs cs = true → codeLt as cs = true
  | _, bs, [], _, h2 => by cases bs <;> simp [codeLt] at h2
  | [], _, _ :: _, _, _ => rfl
  | _ :: _, [], _, h1, _ => by simp [codeLt] at h1
  | a :: as, b :: bs, c :: cs, h1, h2 => by
    simp only [codeLt] at h1 h2 ⊢
    by_cases hab : a.toNat < b.toNat <;> by_cases hbc : b.toNat < c.toNat
    · have : a.toNat < c.toNat := by omega
      simp [this]
    · by_cases hcb : c.toNat < b.toNat
      · simp [hab, hbc, hcb] at h2
      · have : a.toNat < c.toNat := by omega
        simp [this]
    · by_cases hba : b.toNat < a.toNat
      · simp [hab, hba] at h1
      · have : a.toNat < c.toNat := by omega
        simp [this]
    · by_cases hba : b.toNat < a.toNat
      · simp [hab, hba] at h1
      · by_cases hcb : c.toNat < b.toNat
        · simp [hbc, hcb] at h2
        · have hac : ¬ a.toNat < c.toNat := by omega
          have hca : ¬ c.toNat < a.toNat := by omega
          simp only [hab, hba, if_neg, if_false] at h1
          simp only [hbc, hcb, if_neg, if_false] at h2
          simp [hac, hca, codeLt_trans h1 h2]

theorem codeLt_connex : ∀ {as bs : List Char},
    codeLt as bs = false → codeLt bs as = false → as = bs
  | [], [], _, _ => rfl
  | [], _ :: _, h1, _ => by simp [codeLt] at h1
  | _ :: _, [], _, h2 => by simp [codeLt] at h2
  | a :: as, b :: bs, h1, h2 => by
    simp only [codeLt] at h1 h2
    by_cases hab : a.toNat < b.toNat
    · simp [hab] at h1
    · by_cases hba : b.toNat < a.toNat
      · simp [hab, hba] at h2
      · have hv : a = b := Char.ext (by
          apply UInt32.ext
          revert hab hba
          simp only [Char.toNat]
          omega)
        simp only [hab, hba, if_neg, if_false] at h1 h2
        rw [hv, codeLt_connex h1 h2]

theorem pyStrLe_total (s t : String) : pyStrLe s t = true ∨ pyStrLe t s = true := by
  unfold pyStrLe pyStrLt
  by_cases h : codeLt t.data s.data = true
  · right
    simp [codeLt_asymm h]
  · left
    simp at h
    simp [h]

theorem codeLt_le_trans {as bs cs : List Char} (h1 : codeLt bs as = false)
    (h2 : codeLt cs bs = false) : codeLt cs as = false := by
  by_contra h
  simp only [Bool.not_eq_false] at h
  rcases Bool.eq_false_or_eq_true (codeLt bs cs) with hbc | hbc
  · rw [codeLt_trans hbc h] at h1
    exact Bool.noConfusion h1
  · rw [codeLt_connex hbc h2] at h1
    rw [h] at h1
    exact Bool.noConfusion h1

theorem pyStrLe_trans {s t u : String} (h1 : pyStrLe s t = true) (h2 : pyStrLe t u = true) :
    pyStrLe s u = true := by
  unfold pyStrLe pyStrLt at h1 h2 ⊢
  simp only [Bool.not_eq_true'] at h1 h2 ⊢
  exact codeLt_le_trans h1 h2

theorem pyStrLe_antisymm {s t : String} (h1 : pyStrLe s t = true) (h2 : pyStrLe t s = true) :
    s = t := by
  unfold pyStrLe pyStrLt at h1 h2
  simp only [Bool.not_eq_true'] at h1 h2
  exact String.ext (codeLt_connex h2 h1)

theorem pyStrLe_refl (s : String) : pyStrLe s s = true := by
  unfold pyStrLe pyStrLt
  simp [codeLt_irrefl]

theorem pyStrLt_of_le_of_ne {s t : String} (h : pyStrLe s t = true) (hne : s ≠ t) :
    pyStrLt s t = true := by
  unfold pyStrLe pyStrLt at h
  unfold pyStrLt
  simp only [Bool.not_eq_true'] at h
  by_contra hlt
  simp only [Bool.not_eq_true] at hlt
  exact hne (String.ext (codeLt_connex hlt h))

theorem pyStrLt_irrefl (s : String) : pyStrLt s s = false := by
  unfold pyStrLt
  exact codeLt_irrefl s.data

theorem pyStrLt_asymm {s t : String} (h : pyStrLt s t = true) : pyStrLt t s = false := by
  unfold pyStrLt at h ⊢
  exact codeLt_asymm h

instance : IsTotal (String × String) keyLE := ⟨fun a b => pyStrLe_total a.1 b.1⟩

instance : IsTrans (String × String) keyLE := ⟨fun _ _ _ => pyStrLe_trans⟩

theorem keyLT_of_le_of_ne {a b : String × String} (h : keyLE a b) (hne : a.1 ≠ b.1) :
    keyLT a b := pyStrLt_of_le_of_ne h hne

theorem keyLE_pair_refl (a b : String × String) (h : a.1 = b.1) : keyLE a b := by
  unfold keyLE
  rw [h]
  exact pyStrLe_refl b.1

/-! ### UTF-8 encoding (`str.encode("utf-8")`) -/

/-- UTF-8 encoding of a single code point, as its list of bytes. -/
def utf8Char (c : Char) : List Nat :=
  let n := c.toNat
  if n < 0x80 then [n]
  else if n < 0x800 then [0xC0 ||| (n >>> 6), 0x80 ||| (n &&& 0x3F)]
  else if n < 0x10000 then
    [0xE0 ||| (n >>> 12), 0x80 ||| ((n >>> 6) &&& 0x3F), 0x80 ||| (n &&& 0x3F)]
  else
    [0xF0 ||| (n >>> 18), 0x80 ||| ((n >>> 12) &&& 0x3F),
     0x80 ||| ((n >>> 6) &&& 0x3F), 0x80 ||| (n &&& 0x3F)]

/-- UTF-8 encoding of a string (`s.encode("utf-8")` in Python). -/
def utf8Encode (s : String) : List Nat := (s.data.map utf8Char).join

/-! ### MD5 (`hashlib.md5`), RFC 1321, over byte lists -/

/-- The 64 MD5 sine-derived round constants `K[i] = floor(abs(sin(i+1)) * 2^32)`. -/
def md5K (i : Nat) : Nat :=
  [0xd76aa478, 0xe8c7b756, 0x242070db, 0xc1bdceee, 0xf57c0faf, 0x4787c62a, 0xa8304613, 0xfd469501,
   0x698098d8, 0x8b44f7af, 0xffff5bb1, 0x895cd7be, 0x6b901122, 0xfd987193, 0xa679438e, 0x49b40821,
   0xf61e2562, 0xc040b340, 0x265e5a51, 0xe9b6c7aa, 0xd62f105d, 0x02441453, 0xd8a1e681, 0xe7d3fbc8,
   0x21e1cde6, 0xc33707d6, 0xf4d50d87, 0x455a14ed, 0xa9e3e905, 0xfcefa3f8, 0x676f02d9, 0x8d2a4c8a,
   0xfffa3942, 0x8771f681, 0x6d9d6122, 0xfde5380c, 0xa4beea44, 0x4bdecfa9, 0xf6bb4b60, 0xbebfbc70,
   0x289b7ec6, 0xeaa127fa, 0xd4ef3085, 0x04881d05, 0xd9d4d039, 0xe6db99e5, 0x1fa27cf8, 0xc4ac5665,
   0xf4292244, 0x432aff97, 0xab9423a7, 0xfc93a039, 0x655b59c3, 0x8f0ccc92, 0xffeff47d, 0x85845dd1,
   0x6fa87e4f, 0xfe2ce6e0, 0xa3014314, 0x4e0811a1, 0xf7537e82, 0xbd3af235, 0x2ad7d2bb, 0xeb86d391].getD i 0

/-- The per-round left-rotation amounts. -/
def md5S (i : Nat) : Nat :=
  [7, 12, 17, 22, 7, 12, 17, 22, 7, 12, 17, 22, 7, 12, 17, 22,
   5, 9, 14, 20, 5, 9, 14, 20, 5, 9, 14, 20, 5, 9, 14, 20,
   4, 11, 16, 23, 4, 11, 16, 23, 4, 11, 16, 23, 4, 11, 16, 23,
   6, 10, 15, 21, 6, 10, 15, 21, 6, 10, 15, 21, 6, 10, 15, 21].getD i 0

/-- 32-bit all-ones mask. -/
def mask32 : Nat := 0xFFFFFFFF

/-- Left-rotation of a 32-bit word by `c` bits. -/
def rotl32 (c x : Nat) : Nat := ((x <<< c) ||| (x >>> (32 - c))) % 2 ^ 32

/-- MD5 padding: append `0x80`, zero bytes up to 56 mod 64, then the
64-bit little-endian bit length of the original message. -/
def md5Pad (msg : List Nat) : List Nat :=
  msg ++ 0x80 :: List.replicate ((119 - msg.length % 64) % 64) 0 ++
    (List.range 8).map (fun i => (8 * msg.length) >>> (8 * i) % 256)

/-- One MD5 round: state `(a, b, c, d)`, message words `m`, round index `i`. -/
def md5Step (m : List Nat) (st : Nat × Nat × Nat × Nat) (i : Nat) : Nat × Nat × Nat × Nat :=
  let a := st.1
  let b := st.2.1
  let c := st.2.2.1
  let d := st.2.2.2
  let f :=
    if i < 16 then (b &&& c) ||| ((b ^^^ mask32) &&& d)
    else if i < 32 then (d &&& b) ||| ((d ^^^ mask32) &&& c)
    else if i < 48 then b ^^^ c ^^^ d
    else c ^^^ (b ||| (d ^^^ mask32))
  let g :=
    if i < 16 then i
    else if i < 32 then (5 * i + 1) % 16
    else if i < 48 then (3 * i + 5) % 16
    else (7 * i) % 16
  let x := (a + f + md5K i + m.getD g 0) % 2 ^ 32
  (d, (b + rotl32 (md5S i) x) % 2 ^ 32, b, c)

/-- Process one 64-byte chunk, updating the running MD5 state. -/
def md5Block (h : Nat × Nat × Nat × Nat) (chunk : List Nat) : Nat × Nat × Nat × Nat :=
  let m := (List.range 16).map (fun g =>
    chunk.getD (4 * g) 0 + 256 * chunk.getD (4 * g + 1) 0 +
    65536 * chunk.getD (4 * g + 2) 0 + 16777216 * chunk.getD (4 * g + 3) 0)
  let r := (List.range 64).foldl (md5Step m) h
  ((h.1 + r.1) % 2 ^ 32, (h.2.1 + r.2.1) % 2 ^ 32,
   (h.2.2.1 + r.2.2.1) % 2 ^ 32, (h.2.2.2 + r.2.2.2) % 2 ^ 32)

/-- Fold over the 64-byte chunks of the (padded) message; the fuel argument
is an upper bound on the number of chunks so the recursion is structural. -/
def md5Chunks : Nat → Nat × Nat × Nat × Nat → List Nat → Nat × Nat × Nat × Nat
  | 0, h, _ => h
  | _ + 1, h, [] => h
  | fuel + 1, h, bytes => md5Chunks fuel (md5Block h (bytes.take 64)) (bytes.drop 64)

/-- Little-endian byte decomposition of a 32-bit word. -/
def wordLEBytes (w : Nat) : List Nat :=
  [w % 256, (w >>> 8) % 256, (w >>> 16) % 256, (w >>> 24) % 256]

/-- Lowercase hexadecimal digit. -/
def hexDigit (n : Nat) : Char := Char.ofNat (if n < 10 then 48 + n else 87 + n)

/-- Two lowercase hex digits of a byte. -/
def byteHex (b : Nat) : List Char := [hexDigit (b / 16), hexDigit (b % 16)]

/-- `hashlib.md5(bytes).hexdigest()`: the lowercase 32-character hex digest. -/
def md5Hex (msg : List Nat) : String :=
  let padded := md5Pad msg
  let h := md5Chunks padded.length (0x67452301, 0xefcdab89, 0x98badcfe, 0x10325476) padded
  String.mk (((wordLEBytes h.1 ++ wordLEBytes h.2.1 ++
    wordLEBytes h.2.2.1 ++ wordLEBytes h.2.2.2).map byteHex).join)

set_option maxRecDepth 100000 in
example : md5Hex [] = "d41d8cd98f00b204e9800998ecf8427e" := by decide

/-! ### Credentials and `NiuTransPlugin.generate_auth_str` -/

/-- The credential value object (`NiuTransCredentials`): the two secret
strings `app_id` and `apikey`. -/
structure NiuTransCredentials where
  app_id : String := ""
  apikey : String := ""

/-- `sorted(list(params.items()) + [("apikey", self.credentials.apikey)],
key=lambda x: x[0])`: the parameter pairs plus the synthetic apikey pair,
stably sorted by key. `params` is the insertion-ordered item list of the
Python dict. -/
def sorted_params (creds : NiuTransCredentials) (params : List (String × String)) :
    List (String × String) :=
  List.insertionSort keyLE (params ++ [("apikey", creds.apikey)])

/-- `"&".join([f"{key}={value}" for key, value in sorted_params])`. -/
def param_str (creds : NiuTransCredentials) (params : List (String × String)) : String :=
  "&".intercalate ((sorted_params creds params).map (fun kv => kv.1 ++ "=" ++ kv.2))

/-- `NiuTransPlugin.generate_auth_str`: the lowercase hex MD5 digest of the
UTF-8 bytes of the canonical parameter string. -/
def generate_auth_str (creds : NiuTransCredentials) (params : List (String × String)) : String :=
  md5Hex (utf8Encode (param_str creds params))

set_option maxRecDepth 100000 in
example : param_str ⟨"a1", "k1"⟩ [("to", "zh"), ("from", "en")] = "apikey=k1&from=en&to=zh" := by
  decide

set_option maxRecDepth 1000000 in
example : generate_auth_str ⟨"a1", "k1"⟩ [("to", "zh"), ("from", "en")] =
    "d10f9a7ba0dc361fc0d3bc28c848d495" := by decide

instance {e a : Type} [DecidableEq e] [DecidableEq a] : DecidableEq (Except e a) := fun x y =>
  match x, y with
  | .error u, .error v =>
    if h : u = v then .isTrue (congrArg Except.error h)
    else .isFalse (fun he => h (Except.error.inj he))
  | .ok u, .ok v =>
    if h : u = v then .isTrue (congrArg Except.ok h)
    else .isFalse (fun he => h (Except.ok.inj he))
  | .error _, .ok _ => .isFalse (fun he => Except.noConfusion he)
  | .ok _, .error _ => .isFalse (fun he => Except.noConfusion he)

/-! ### JSON values and the pydantic response model `TransResponse` -/

/-- A JSON value as far as the response schema is concerned: a string or
`null` (pydantic maps `null` to Python `None` for `Optional[str]` fields). -/
inductive JVal where
  | str (s : String)
  | null
deriving DecidableEq

/-- Field lookup in a parsed JSON object (keys of a JSON-decoded Python
dict are unique; first match). -/
def lookupField : List (String × JVal) → String → Option JVal
  | [], _ => none
  | (k, v) :: rest, key => if k = key then some v else lookupField rest key

/-- A present JSON value for an `Optional[str]` field: `null` becomes `None`. -/
def jvalToOpt : JVal → Option String
  | .str s => some s
  | .null => none

/-- An optional `TransResponse` field: absent defaults to `""`, present
`null` becomes `None`, present string is kept. -/
def parseOptField (fields : List (String × JVal)) (key : String) : Option String :=
  match lookupField fields key with
  | none => some ""
  | some v => jvalToOpt v

/-- The pydantic model `TransResponse`: `from_` (alias `from`) is required,
all other fields are optional with default `""`. Every field is
`Optional[str]`, so each holds `None` or a string. -/
structure TransResponse where
  from_ : Option String
  to_ : Option String
  tgtText : Option String
  srcText : Option String
  errorCode : Option String
  errorMsg : Option String
deriving DecidableEq

/-- Modelled pydantic validation failure message for the missing required
`from` field (the exact text is produced by the external pydantic library). -/
def missingFromMsg : String := "1 validation error for TransResponse: from Field required"

/-- `TransResponse(**response.json())`: the required `from` key must be
present or validation fails; the other fields take their defaults. -/
def parseTransResponse (fields : List (String × JVal)) : Except String TransResponse :=
  match lookupField fields "from" with
  | none => .error missingFromMsg
  | some v =>
    .ok { from_ := jvalToOpt v
          to_ := parseOptField fields "to"
          tgtText := parseOptField fields "tgtText"
          srcText := parseOptField fields "srcText"
          errorCode := parseOptField fields "errorCode"
          errorMsg := parseOptField fields "errorMsg" }

/-! ### The HTTP response as seen by the plugin -/

/-- The remote response: an HTTP status and, when the body is valid JSON,
the decoded JSON object (`none` models a body `response.json()` rejects). -/
structure HttpResponse where
  status : Nat
  jsonBody : Option (List (String × JVal))

/-- `httpx.Response.is_success`: status in the 2xx range. -/
def is_success (status : Nat) : Bool := 200 ≤ status && status ≤ 299

/-- Modelled from the spec: the message of the `httpx.HTTPStatusError`
raised by `raise_for_status` (its exact text is produced by the external
httpx library; only its presence matters to the plugin). -/
def httpStatusMessage (status : Nat) : String :=
  "HTTP status error " ++ toString status

/-- Modelled from the spec: the message of the decode error raised by
`response.json()` on a non-JSON body (text produced by the external library). -/
def jsonDecodeMessage : String := "JSON decode error"

/-- `response.raise_for_status()`: raises for any non-2xx status. -/
def raise_for_status (resp : HttpResponse) : Except String Unit :=
  if is_success resp.status then .ok () else .error (httpStatusMessage resp.status)

/-- `response.json()`: the decoded object, or a decode error. -/
def response_json (resp : HttpResponse) : Except String (List (String × JVal)) :=
  match resp.jsonBody with
  | none => .error jsonDecodeMessage
  | some fields => .ok fields

/-- Python `f"{x}"` for an `Optional[str]` value: `None` prints as `"None"`. -/
def pyStr : Option String → String
  | none => "None"
  | some s => s

/-! ### `NiuTransPlugin.verify` -/

/-- The parameter dict built by `verify` (the `timestamp` int is rendered
in decimal by the f-string in `generate_auth_str` and by form encoding). -/
def verify_data (creds : NiuTransCredentials) (timestamp : Nat) : List (String × String) :=
  [("from", "en"), ("to", "zh"), ("srcText", "testing"),
   ("appId", creds.app_id), ("timestamp", toString timestamp)]

/-- The form body `verify` actually posts: the parameters plus `authStr`. -/
def verify_wire_data (creds : NiuTransCredentials) (timestamp : Nat) : List (String × String) :=
  verify_data creds timestamp ++
    [("authStr", generate_auth_str creds (verify_data creds timestamp))]

/-- `NiuTransPlugin.verify`, parameterised by the HTTP response: every
failure (status, JSON decode, validation, non-empty error code) is caught
and re-raised with the `Credential verification failed: ` prefix; success
returns nothing. -/
def verify (creds : NiuTransCredentials) (timestamp : Nat) (resp : HttpResponse) :
    Except String Unit :=
  match raise_for_status resp with
  | .error e => .error ("Credential verification failed: " ++ e)
  | .ok _ =>
    match response_json resp with
    | .error e => .error ("Credential verification failed: " ++ e)
    | .ok fields =>
      match parseTransResponse fields with
      | .error e => .error ("Credential verification failed: " ++ e)
      | .ok result =>
        if result.errorCode ≠ some "" then
          .error ("Credential verification failed: " ++
            ("Error code: " ++ pyStr result.errorCode ++ ", message: " ++ pyStr result.errorMsg))
        else
          .ok ()

/-! ### `NiuTransPlugin.translate_text` -/

/-- The structured record yielded first by `translate_text`. -/
structure TransRecord where
  translated_text : Option String
  source_language : String
  target_language : String
  original_text : String
  error_code : Option String
  error_msg : Option String
deriving DecidableEq

/-- One item yielded by the `translate_text` generator: the structured
record, or the bare translated text (an `Optional[str]` passthrough). -/
inductive Emission where
  | record (r : TransRecord)
  | text (t : Option String)
deriving DecidableEq

/-- The parameter dict built by `translate_text`. -/
def translate_data (creds : NiuTransCredentials)
    (text from_language to_language : String) (timestamp : Nat) : List (String × String) :=
  [("from", from_language), ("to", to_language), ("appId", creds.app_id),
   ("timestamp", toString timestamp), ("srcText", text)]

/-- The form body `translate_text` actually posts: parameters plus `authStr`. -/
def translate_wire_data (creds : NiuTransCredentials)
    (text from_language to_language : String) (timestamp : Nat) : List (String × String) :=
  translate_data creds text from_language to_language timestamp ++
    [("authStr",
      generate_auth_str creds (translate_data creds text from_language to_language timestamp))]

/-- `NiuTransPlugin.translate_text`, parameterised by the HTTP response:
on success the generator yields exactly the structured record and then the
bare translated text; every failure inside the `try` block is re-raised
with the `Translation request failed: ` prefix. -/
def translate_text (creds : NiuTransCredentials)
    (text from_language to_language : String) (timestamp : Nat) (resp : HttpResponse) :
    Except String (List Emission) :=
  match raise_for_status resp with
  | .error e => .error ("Translation request failed: " ++ e)
  | .ok _ =>
    match response_json resp with
    | .error e => .error ("Translation request failed: " ++ e)
    | .ok fields =>
      match parseTransResponse fields with
      | .error e => .error ("Translation request failed: " ++ e)
      | .ok result =>
        if result.errorCode ≠ some "" then
          .error ("Translation request failed: " ++ ("Translation failed: " ++ pyStr result.errorMsg))
        else
          .ok [.record { translated_text := result.tgtText
                         source_language := if from_language = "" then "auto" else from_language
                         target_language := to_language
                         original_text := text
                         error_code := result.errorCode
                         error_msg := result.errorMsg },
               .text result.tgtText]

example : translate_text ⟨"a1", "k1"⟩ "hello" "en" "zh" 0
    ⟨200, some [("from", .str "en"), ("to", .str "zh"), ("tgtText", .str "你好"),
                ("errorCode", .str ""), ("errorMsg", .str "")]⟩ =
    .ok [.record ⟨some "你好", "en", "zh", "hello", some "", some ""⟩, .text (some "你好")] := by
  decide

/-! ### Key-uniqueness helpers and the sorted-output characterisation -/

theorem eq_of_mem_of_nodup_keys : ∀ {p : List (String × String)},
    (p.map Prod.fst).Nodup → ∀ x ∈ p, ∀ y ∈ p, x.1 = y.1 → x = y := by
  intro p
  induction p with
  | nil => intro _ x hx; exact absurd hx (List.not_mem_nil x)
  | cons a t ih =>
    intro hnd x hx y hy hxy
    rw [List.map_cons] at hnd
    rcases List.nodup_cons.mp hnd with ⟨hna, hnd'⟩
    rcases List.mem_cons.mp hx with hxa | hxt <;> rcases List.mem_cons.mp hy with hya | hyt
    · rw [hxa, hya]
    · exfalso
      apply hna
      rw [← hxa, hxy]
      exact List.mem_map_of_mem Prod.fst hyt
    · exfalso
      apply hna
      rw [← hya, ← hxy]
      exact List.mem_map_of_mem Prod.fst hxt
    · exact ih hnd' x hxt y hyt hxy

theorem pairwise_R_aux (q syn : String × String) :
    ∀ t : List (String × String),
    List.Pairwise keyLE t →
    (∀ x ∈ t, ∀ y ∈ t, x.1 = y.1 → x.1 = syn.1 ∨ x = y) →
    (∀ x ∈ t, x.1 = syn.1 → x = q ∨ x = syn) →
    (q ≠ syn → t.Nodup ∧
      (List.Sublist [q, syn] t ∨ syn ∉ t ∨ q ∉ t)) →
    List.Pairwise (fun a b => keyLT a b ∨ a = b ∨ (a = q ∧ b = syn)) t := by
  intro t
  induction t with
  | nil => intro _ _ _ _; exact List.Pairwise.nil
  | cons a t ih =>
    intro hle hkeys hcls hpos
    rcases List.pairwise_cons.mp hle with ⟨ha, hle'⟩
    refine List.pairwise_cons.mpr ⟨?_, ih hle' ?_ ?_ ?_⟩
    · intro b hb
      by_cases hab : a.1 = b.1
      · rcases hkeys a (List.mem_cons_self a t) b (List.mem_cons_of_mem a hb) hab with hk | heq
        · have hbk : b.1 = syn.1 := by rw [← hab]; exact hk
          rcases hcls a (List.mem_cons_self a t) hk with haq | hasyn <;>
            rcases hcls b (List.mem_cons_of_mem a hb) hbk with hbq | hbsyn
          · right; left; rw [haq, hbq]
          · right; right; exact ⟨haq, hbsyn⟩
          · by_cases hqs : q = syn
            · right; left; rw [hasyn, hbq, hqs]
            · exfalso
              obtain ⟨hnodup, hss⟩ := hpos hqs
              rcases hss with hsub | hnos | hnoq
              · cases hsub with
                | cons _ h =>
                  have hsynt : syn ∈ t := h.subset (by simp)
                  have hant : a ∉ t := (List.nodup_cons.mp hnodup).1
                  rw [hasyn] at hant
                  exact hant hsynt
                | cons₂ _ h =>
                  exact hqs (by rw [hasyn])
              · exact hnos (by rw [← hasyn]; exact List.mem_cons_self a t)
              · exact hnoq (by rw [← hbq]; exact List.mem_cons_of_mem a hb)
          · right; left; rw [hasyn, hbsyn]
        · right; left; exact heq
      · left; exact keyLT_of_le_of_ne (ha b hb) hab
    · intro x hx y hy hxy
      exact hkeys x (List.mem_cons_of_mem a hx) y (List.mem_cons_of_mem a hy) hxy
    · intro x hx hxk
      exact hcls x (List.mem_cons_of_mem a hx) hxk
    · intro hqs
      obtain ⟨hnodup, hss⟩ := hpos hqs
      refine ⟨(List.nodup_cons.mp hnodup).2, ?_⟩
      rcases hss with hsub | hnos | hnoq
      · cases hsub with
        | cons _ h => exact Or.inl h
        | cons₂ _ h =>
          exact Or.inr (Or.inr (List.nodup_cons.mp hnodup).1)
      · exact Or.inr (Or.inl fun hmem => hnos (List.mem_cons_of_mem a hmem))
      · exact Or.inr (Or.inr fun hmem => hnoq (List.mem_cons_of_mem a hmem))

theorem insort_eq_of_perm_aux (syn q : String × String) (hq1 : q.1 = syn.1)
    {l1 l2 : List (String × String)} (hperm : l1.Perm l2)
    (hkeys1 : ∀ x ∈ l1, ∀ y ∈ l1, x.1 = y.1 → x.1 = syn.1 ∨ x = y)
    (hcls1 : ∀ x ∈ l1, x.1 = syn.1 → x = q ∨ x = syn)
    (hpos1 : q ≠ syn → l1.Nodup ∧ List.Sublist [q, syn] l1)
    (hpos2 : q ≠ syn → List.Sublist [q, syn] l2) :
    List.insertionSort keyLE l1 = List.insertionSort keyLE l2 := by
  have hp1 : (List.insertionSort keyLE l1).Perm l1 := List.perm_insertionSort keyLE l1
  have hp2 : (List.insertionSort keyLE l2).Perm l2 := List.perm_insertionSort keyLE l2
  have hs1 : List.Pairwise keyLE (List.insertionSort keyLE l1) :=
    List.sorted_insertionSort keyLE l1
  have hs2 : List.Pairwise keyLE (List.insertionSort keyLE l2) :=
    List.sorted_insertionSort keyLE l2
  have hpairQS : List.Pairwise keyLE [q, syn] := by
    refine List.pairwise_cons.mpr ⟨?_, List.pairwise_singleton keyLE syn⟩
    intro b hb
    rw [List.mem_singleton.mp hb]
    exact keyLE_pair_refl q syn hq1
  have hkeys2 : ∀ x ∈ l2, ∀ y ∈ l2, x.1 = y.1 → x.1 = syn.1 ∨ x = y := by
    intro x hx y hy
    exact hkeys1 x (hperm.mem_iff.mpr hx) y (hperm.mem_iff.mpr hy)
  have hcls2 : ∀ x ∈ l2, x.1 = syn.1 → x = q ∨ x = syn := by
    intro x hx
    exact hcls1 x (hperm.mem_iff.mpr hx)
  have hR1 : List.Pairwise (fun a b => keyLT a b ∨ a = b ∨ (a = q ∧ b = syn))
      (List.insertionSort keyLE l1) := by
    refine pairwise_R_aux q syn _ hs1 ?_ ?_ ?_
    · intro x hx y hy
      exact hkeys1 x (hp1.mem_iff.mp hx) y (hp1.mem_iff.mp hy)
    · intro x hx
      exact hcls1 x (hp1.mem_iff.mp hx)
    · intro hqs
      obtain ⟨hnod, hsub⟩ := hpos1 hqs
      exact ⟨hp1.nodup_iff.mpr hnod, Or.inl (List.sublist_insertionSort hpairQS hsub)⟩
  have hR2 : List.Pairwise (fun a b => keyLT a b ∨ a = b ∨ (a = q ∧ b = syn))
      (List.insertionSort keyLE l2) := by
    refine pairwise_R_aux q syn _ hs2 ?_ ?_ ?_
    · intro x hx y hy
      exact hkeys2 x (hp2.mem_iff.mp hx) y (hp2.mem_iff.mp hy)
    · intro x hx
      exact hcls2 x (hp2.mem_iff.mp hx)
    · intro hqs
      obtain ⟨hnod, _⟩ := hpos1 hqs
      refine ⟨hp2.nodup_iff.mpr (hperm.nodup_iff.mp hnod), ?_⟩
      exact Or.inl (List.sublist_insertionSort hpairQS (hpos2 hqs))
  haveI : IsAntisymm (String × String)
      (fun a b => keyLT a b ∨ a = b ∨ (a = q ∧ b = syn)) := by
    constructor
    intro a b h1 h2
    rcases h1 with h1 | h1 | ⟨haq, hbs⟩
    · rcases h2 with h2 | h2 | ⟨hbq, has⟩
      · exfalso
        unfold keyLT at h1 h2
        rw [pyStrLt_asymm h1] at h2
        exact Bool.noConfusion h2
      · exact h2.symm
      · exfalso
        unfold keyLT at h1
        have hk : a.1 = b.1 := by rw [has, hbq, hq1]
        rw [hk, pyStrLt_irrefl] at h1
        exact Bool.noConfusion h1
    · exact h1
    · rcases h2 with h2 | h2 | ⟨hbq, has⟩
      · exfalso
        unfold keyLT at h2
        have hk : b.1 = a.1 := by rw [haq, hbs, hq1]
        rw [hk, pyStrLt_irrefl] at h2
        exact Bool.noConfusion h2
      · exact h2.symm
      · rw [haq, hbq]
  exact List.eq_of_perm_of_sorted (hp1.trans (hperm.trans hp2.symm)) hR1 hR2

theorem sorted_params_eq_of_perm (creds : NiuTransCredentials)
    {p1 p2 : List (String × String)} (hperm : p1.Perm p2)
    (hnd : (p1.map Prod.fst).Nodup) :
    sorted_params creds p1 = sorted_params creds p2 := by
  classical
  have key_inj1 := eq_of_mem_of_nodup_keys hnd
  have hl : (p1 ++ [("apikey", creds.apikey)]).Perm (p2 ++ [("apikey", creds.apikey)]) :=
    hperm.append_right [("apikey", creds.apikey)]
  have hkeys1 : ∀ x ∈ p1 ++ [("apikey", creds.apikey)],
      ∀ y ∈ p1 ++ [("apikey", creds.apikey)], x.1 = y.1 → x.1 = "apikey" ∨ x = y := by
    intro x hx y hy hxy
    rcases List.mem_append.mp hx with hx1 | hxs
    · rcases List.mem_append.mp hy with hy1 | hys
      · exact Or.inr (key_inj1 x hx1 y hy1 hxy)
      · left
        rw [hxy, List.mem_singleton.mp hys]
    · left
      rw [List.mem_singleton.mp hxs]
  by_cases hex : ∃ x ∈ p1, x.1 = "apikey"
  · obtain ⟨q, hqmem, hqkey⟩ := hex
    have hcls1 : ∀ x ∈ p1 ++ [("apikey", creds.apikey)],
        x.1 = "apikey" → x = q ∨ x = ("apikey", creds.apikey) := by
      intro x hx hxk
      rcases List.mem_append.mp hx with hx1 | hxs
      · exact Or.inl (key_inj1 x hx1 q hqmem (by rw [hxk, hqkey]))
      · exact Or.inr (List.mem_singleton.mp hxs)
    have hpos1 : q ≠ ("apikey", creds.apikey) →
        (p1 ++ [("apikey", creds.apikey)]).Nodup ∧
          List.Sublist [q, ("apikey", creds.apikey)] (p1 ++ [("apikey", creds.apikey)]) := by
      intro hqs
      have hsynp : ("apikey", creds.apikey) ∉ p1 := by
        intro hsp
        exact hqs (key_inj1 q hqmem ("apikey", creds.apikey) hsp hqkey)
      constructor
      · refine List.nodup_append.mpr ⟨hnd.of_map Prod.fst, List.nodup_singleton _, ?_⟩
        intro x hx1 hxs
        rw [List.mem_singleton.mp hxs] at hx1
        exact hsynp hx1
      · exact List.Sublist.append (List.singleton_sublist.mpr hqmem) (List.Sublist.refl _)
    have hpos2 : q ≠ ("apikey", creds.apikey) →
        List.Sublist [q, ("apikey", creds.apikey)] (p2 ++ [("apikey", creds.apikey)]) := by
      intro _
      exact List.Sublist.append (List.singleton_sublist.mpr (hperm.mem_iff.mp hqmem))
        (List.Sublist.refl _)
    exact insort_eq_of_perm_aux ("apikey", creds.apikey) q hqkey hl hkeys1 hcls1 hpos1 hpos2
  · push_neg at hex
    have hcls1 : ∀ x ∈ p1 ++ [("apikey", creds.apikey)],
        x.1 = "apikey" → x = ("apikey", creds.apikey) ∨ x = ("apikey", creds.apikey) := by
      intro x hx hxk
      rcases List.mem_append.mp hx with hx1 | hxs
      · exact absurd hxk (hex x hx1)
      · exact Or.inl (List.mem_singleton.mp hxs)
    exact insort_eq_of_perm_aux ("apikey", creds.apikey) ("apikey", creds.apikey) rfl hl
      hkeys1 hcls1 (fun hqs => absurd rfl hqs) (fun hqs => absurd rfl hqs)

/-! ### Shape helpers for the two operations -/

theorem raise_for_status_ok {resp : HttpResponse} {u : Unit}
    (h : raise_for_status resp = .ok u) : is_success resp.status = true := by
  unfold raise_for_status at h
  split at h
  · assumption
  · exact Except.noConfusion h

theorem response_json_ok {resp : HttpResponse} {fields : List (String × JVal)}
    (h : response_json resp = .ok fields) : resp.jsonBody = some fields := by
  unfold response_json at h
  split at h
  · exact Except.noConfusion h
  · rename_i f heq
    rw [heq]
    exact congrArg some (Except.ok.inj h)

theorem translate_text_ok_shape {creds : NiuTransCredentials}
    {text fromL toL : String} {ts : Nat} {resp : HttpResponse} {out : List Emission}
    (h : translate_text creds text fromL toL ts resp = .ok out) :
    ∃ result : TransResponse,
      is_success resp.status = true ∧
      (∃ fields, resp.jsonBody = some fields ∧ parseTransResponse fields = .ok result) ∧
      result.errorCode = some "" ∧
      out = [.record { translated_text := result.tgtText
                       source_language := if fromL = "" then "auto" else fromL
                       target_language := toL
                       original_text := text
                       error_code := result.errorCode
                       error_msg := result.errorMsg },
             .text result.tgtText] := by
  unfold translate_text at h
  split at h
  · exact Except.noConfusion h
  · rename_i u hrs
    split at h
    · exact Except.noConfusion h
    · rename_i fields hrj
      split at h
      · exact Except.noConfusion h
      · rename_i result hpar
        split at h
        · exact Except.noConfusion h
        · rename_i hcode
          rw [not_not] at hcode
          refine ⟨result, raise_for_status_ok hrs, ⟨fields, response_json_ok hrj, hpar⟩,
            hcode, ?_⟩
          exact (Except.ok.inj h).symm

/-! ### Claim theorems -/

/-- Claim C1: for the parameter map whose items are `to ↦ zh, from ↦ en`
and API key `k1`, `generate_auth_str` builds exactly the canonical string
`apikey=k1&from=en&to=zh` (pairs joined as key=value with `&` in sorted key
order, no escaping) and returns the lowercase 32-character hexadecimal MD5
digest of that string's UTF-8 bytes (for this literal string:
`d10f9a7ba0dc361fc0d3bc28c848d495`, which matches the standard MD5 test
vector for it). -/
theorem C1_signature_example :
    param_str ⟨"a1", "k1"⟩ [("to", "zh"), ("from", "en")] = "apikey=k1&from=en&to=zh" ∧
    generate_auth_str ⟨"a1", "k1"⟩ [("to", "zh"), ("from", "en")] =
      md5Hex (utf8Encode "apikey=k1&from=en&to=zh") ∧
    generate_auth_str ⟨"a1", "k1"⟩ [("to", "zh"), ("from", "en")] =
      "d10f9a7ba0dc361fc0d3bc28c848d495" ∧
    (generate_auth_str ⟨"a1", "k1"⟩ [("to", "zh"), ("from", "en")]).length = 32 ∧
    ∀ c ∈ (generate_auth_str ⟨"a1", "k1"⟩ [("to", "zh"), ("from", "en")]).data,
      c ∈ "0123456789abcdef".data := by
  set_option maxRecDepth 1000000 in decide

/-- Claim C2 counterexample: for the parameter map containing the single
key `apikey`, the sorted pair list holds two `apikey`-keyed pairs (the
map's own, then the synthetic one), so the canonical string's segments are
NOT in strictly increasing key order. -/
theorem C2_counterexample :
    sorted_params ⟨"a1", "k1"⟩ [("apikey", "x")] = [("apikey", "x"), ("apikey", "k1")] ∧
    ¬ List.Pairwise keyLT (sorted_params ⟨"a1", "k1"⟩ [("apikey", "x")]) := by
  set_option maxRecDepth 100000 in decide

/-- Claim C2 (amended): for every parameter map whose keys are pairwise
distinct and do not contain `apikey`, the canonical pair list is in
strictly increasing lexicographic key order and contains the synthetic
`apikey` pair exactly once (the only `apikey`-keyed pair is the synthetic
one). -/
theorem C2_sorted_strict_and_unique (creds : NiuTransCredentials)
    (params : List (String × String)) (hnd : (params.map Prod.fst).Nodup)
    (hak : "apikey" ∉ params.map Prod.fst) :
    List.Pairwise keyLT (sorted_params creds params) ∧
    (sorted_params creds params).filter (fun kv => kv.1 == "apikey") =
      [("apikey", creds.apikey)] := by
  have hperm : (sorted_params creds params).Perm (params ++ [("apikey", creds.apikey)]) :=
    List.perm_insertionSort keyLE _
  have hkeysnd : ((params ++ [("apikey", creds.apikey)]).map Prod.fst).Nodup := by
    rw [List.map_append]
    refine List.nodup_append.mpr ⟨hnd, List.nodup_singleton _, ?_⟩
    intro x hx hxs
    rw [List.mem_singleton.mp hxs] at hx
    exact hak hx
  have hsnd : ((sorted_params creds params).map Prod.fst).Nodup :=
    ((hperm.map Prod.fst).nodup_iff).mpr hkeysnd
  constructor
  · have hle : List.Pairwise keyLE (sorted_params creds params) :=
      List.sorted_insertionSort keyLE _
    have hne : List.Pairwise (fun a b : String × String => a.1 ≠ b.1)
        (sorted_params creds params) := List.pairwise_map.mp hsnd
    exact (hle.and hne).imp fun h => keyLT_of_le_of_ne h.1 h.2
  · have hfp : ((sorted_params creds params).filter (fun kv => kv.1 == "apikey")).Perm
        ((params ++ [("apikey", creds.apikey)]).filter (fun kv => kv.1 == "apikey")) :=
      hperm.filter _
    rw [List.filter_append] at hfp
    have hfnil : params.filter (fun kv => kv.1 == "apikey") = [] := by
      rw [List.filter_eq_nil]
      intro kv hkv hbeq
      exact hak (by
        rw [← (by simpa using hbeq : kv.1 = "apikey")]
        exact List.mem_map_of_mem Prod.fst hkv)
    rw [hfnil, List.nil_append] at hfp
    have : List.filter (fun kv => kv.1 == "apikey") [("apikey", creds.apikey)] =
        [("apikey", creds.apikey)] := by
      rw [List.filter_cons_of_pos (by rfl), List.filter_nil]
    rw [this] at hfp
    exact List.perm_singleton.mp hfp

/-- Witness for C2 (amended) at the map `to ↦ zh, from ↦ en` and apikey
`k1`. -/
theorem C2_witness :
    List.Pairwise keyLT (sorted_params ⟨"a1", "k1"⟩ [("to", "zh"), ("from", "en")]) ∧
    (sorted_params ⟨"a1", "k1"⟩ [("to", "zh"), ("from", "en")]).filter
      (fun kv => kv.1 == "apikey") = [("apikey", "k1")] :=
  C2_sorted_strict_and_unique ⟨"a1", "k1"⟩ [("to", "zh"), ("from", "en")]
    (by decide) (by decide)

/-- Claim C3: every successful `translate_text` call emits exactly two
items in fixed order — the full structured record first, then the bare
translated text; in particular, for the remote response
`from=en, to=zh, tgtText=你好, errorCode="", errorMsg=""`, the call
`translate("hello","en","zh")` yields the record with translated text
`你好` and empty error code, followed by the bare string `你好`. -/
theorem C3_emits_record_then_text :
    (∀ (creds : NiuTransCredentials) (text fromL toL : String) (ts : Nat)
       (resp : HttpResponse) (out : List Emission),
       translate_text creds text fromL toL ts resp = .ok out →
       ∃ r : TransRecord, out = [.record r, .text r.translated_text]) ∧
    translate_text ⟨"a1", "k1"⟩ "hello" "en" "zh" 0
      ⟨200, some [("from", .str "en"), ("to", .str "zh"), ("tgtText", .str "你好"),
                  ("errorCode", .str ""), ("errorMsg", .str "")]⟩ =
      .ok [.record ⟨some "你好", "en", "zh", "hello", some "", some ""⟩,
           .text (some "你好")] := by
  constructor
  · intro creds text fromL toL ts resp out h
    obtain ⟨result, _, _, _, hout⟩ := translate_text_ok_shape h
    exact ⟨_, hout⟩
  · decide

/-- Witness for the universal part of C3 at a concrete successful call. -/
theorem C3_witness :
    ∃ r : TransRecord,
      [Emission.record ⟨some "你好", "en", "zh", "hello", some "", some ""⟩,
       Emission.text (some "你好")] = [.record r, .text r.translated_text] :=
  C3_emits_record_then_text.1 ⟨"a1", "k1"⟩ "hello" "en" "zh" 0
    ⟨200, some [("from", .str "en"), ("to", .str "zh"), ("tgtText", .str "你好"),
                ("errorCode", .str ""), ("errorMsg", .str "")]⟩
    [.record ⟨some "你好", "en", "zh", "hello", some "", some ""⟩, .text (some "你好")]
    (by decide)


theorem response_json_some {resp : HttpResponse} {fields : List (String × JVal)}
    (hjson : resp.jsonBody = some fields) : response_json resp = .ok fields := by
  unfold response_json
  rw [hjson]

theorem raise_for_status_success {resp : HttpResponse}
    (hst : is_success resp.status = true) : raise_for_status resp = .ok () := by
  unfold raise_for_status
  split
  · rfl
  · rename_i hc
    exact absurd hst hc

theorem raise_for_status_failure {resp : HttpResponse}
    (hst : is_success resp.status = false) :
    raise_for_status resp = .error (httpStatusMessage resp.status) := by
  unfold raise_for_status
  split
  · rename_i hc
    rw [hst] at hc
    exact Bool.noConfusion hc
  · rfl

theorem verify_success_case {creds : NiuTransCredentials} {ts : Nat} {resp : HttpResponse}
    {fields : List (String × JVal)} {result : TransResponse}
    (hst : is_success resp.status = true) (hjson : resp.jsonBody = some fields)
    (hpar : parseTransResponse fields = .ok result) :
    verify creds ts resp =
      if result.errorCode ≠ some "" then
        .error ("Credential verification failed: " ++
          ("Error code: " ++ pyStr result.errorCode ++ ", message: " ++ pyStr result.errorMsg))
      else .ok () := by
  unfold verify
  rw [raise_for_status_success hst]
  dsimp only
  rw [response_json_some hjson]
  dsimp only
  rw [hpar]

theorem verify_status_error {creds : NiuTransCredentials} {ts : Nat} {resp : HttpResponse}
    (hst : is_success resp.status = false) :
    verify creds ts resp =
      .error ("Credential verification failed: " ++ httpStatusMessage resp.status) := by
  unfold verify
  rw [raise_for_status_failure hst]

theorem verify_json_error {creds : NiuTransCredentials} {ts : Nat} {resp : HttpResponse}
    (hst : is_success resp.status = true) (hjson : resp.jsonBody = none) :
    verify creds ts resp = .error ("Credential verification failed: " ++ jsonDecodeMessage) := by
  unfold verify
  rw [raise_for_status_success hst]
  dsimp only
  have : response_json resp = .error jsonDecodeMessage := by
    unfold response_json
    rw [hjson]
  rw [this]

theorem verify_parse_error {creds : NiuTransCredentials} {ts : Nat} {resp : HttpResponse}
    {fields : List (String × JVal)} {e : String}
    (hst : is_success resp.status = true) (hjson : resp.jsonBody = some fields)
    (hpar : parseTransResponse fields = .error e) :
    verify creds ts resp = .error ("Credential verification failed: " ++ e) := by
  unfold verify
  rw [raise_for_status_success hst]
  dsimp only
  rw [response_json_some hjson]
  dsimp only
  rw [hpar]

theorem translate_success_case {creds : NiuTransCredentials}
    {text fromL toL : String} {ts : Nat} {resp : HttpResponse}
    {fields : List (String × JVal)} {result : TransResponse}
    (hst : is_success resp.status = true) (hjson : resp.jsonBody = some fields)
    (hpar : parseTransResponse fields = .ok result) :
    translate_text creds text fromL toL ts resp =
      if result.errorCode ≠ some "" then
        .error ("Translation request failed: " ++
          ("Translation failed: " ++ pyStr result.errorMsg))
      else
        .ok [.record { translated_text := result.tgtText
                       source_language := if fromL = "" then "auto" else fromL
                       target_language := toL
                       original_text := text
                       error_code := result.errorCode
                       error_msg := result.errorMsg },
             .text result.tgtText] := by
  unfold translate_text
  rw [raise_for_status_success hst]
  dsimp only
  rw [response_json_some hjson]
  dsimp only
  rw [hpar]

theorem translate_status_error {creds : NiuTransCredentials}
    {text fromL toL : String} {ts : Nat} {resp : HttpResponse}
    (hst : is_success resp.status = false) :
    translate_text creds text fromL toL ts resp =
      .error ("Translation request failed: " ++ httpStatusMessage resp.status) := by
  unfold translate_text
  rw [raise_for_status_failure hst]

/-- Claim C4: a remote response carrying a non-empty `errorCode` makes both
`verify` and `translate_text` fail regardless of HTTP status, while a
parsed response whose `errorCode` is absent or empty (so it parses to `""`)
together with a 2xx status never fails the errorCode check: both
operations succeed. -/
theorem C4_errorCode_gates_success (creds : NiuTransCredentials)
    (text fromL toL : String) (ts : Nat) (resp : HttpResponse)
    (fields : List (String × JVal)) (result : TransResponse) :
    (resp.jsonBody = some fields → parseTransResponse fields = .ok result →
     ∀ c, result.errorCode = some c → c ≠ "" →
     (∃ e, verify creds ts resp = .error e) ∧
     (∃ e, translate_text creds text fromL toL ts resp = .error e)) ∧
    (is_success resp.status = true → resp.jsonBody = some fields →
     parseTransResponse fields = .ok result → result.errorCode = some "" →
     verify creds ts resp = .ok () ∧
     ∃ out, translate_text creds text fromL toL ts resp = .ok out) := by
  constructor
  · intro hjson hpar c hcode hcne
    have hne : result.errorCode ≠ some "" := by
      rw [hcode]
      intro hcontra
      exact hcne (Option.some.inj hcontra)
    rcases Bool.eq_false_or_eq_true (is_success resp.status) with hst | hst
    · constructor
      · refine ⟨"Credential verification failed: " ++
          ("Error code: " ++ pyStr result.errorCode ++ ", message: " ++
            pyStr result.errorMsg), ?_⟩
        rw [verify_success_case hst hjson hpar, if_pos hne]
      · refine ⟨"Translation request failed: " ++
          ("Translation failed: " ++ pyStr result.errorMsg), ?_⟩
        rw [translate_success_case hst hjson hpar, if_pos hne]
    · exact ⟨⟨_, verify_status_error hst⟩, ⟨_, translate_status_error hst⟩⟩
  · intro hst hjson hpar hcode
    have hne : ¬ result.errorCode ≠ some "" := by
      rw [hcode]
      exact fun hcontra => hcontra rfl
    constructor
    · rw [verify_success_case hst hjson hpar, if_neg hne]
    · refine ⟨[.record { translated_text := result.tgtText
                         source_language := if fromL = "" then "auto" else fromL
                         target_language := toL
                         original_text := text
                         error_code := result.errorCode
                         error_msg := result.errorMsg },
               .text result.tgtText], ?_⟩
      rw [translate_success_case hst hjson hpar, if_neg hne]

/-- Witness for C4 at a concrete failing response (errorCode 10001, status
200) for the first part and a concrete successful response for the second
part. -/
theorem C4_witness :
    (∃ e, verify ⟨"a1", "k1"⟩ 0
      ⟨200, some [("from", .str "en"), ("errorCode", .str "10001"),
                  ("errorMsg", .str "invalid appid")]⟩ = .error e) ∧
    verify ⟨"a1", "k1"⟩ 0 ⟨200, some [("from", .str "en")]⟩ = .ok () := by
  constructor
  · exact ((C4_errorCode_gates_success ⟨"a1", "k1"⟩ "hello" "en" "zh" 0
      ⟨200, some [("from", .str "en"), ("errorCode", .str "10001"),
                  ("errorMsg", .str "invalid appid")]⟩
      [("from", .str "en"), ("errorCode", .str "10001"), ("errorMsg", .str "invalid appid")]
      ⟨some "en", some "", some "", some "", some "10001", some "invalid appid"⟩).1
      rfl (by decide) "10001" rfl (by decide)).1
  · exact ((C4_errorCode_gates_success ⟨"a1", "k1"⟩ "hello" "en" "zh" 0
      ⟨200, some [("from", .str "en")]⟩
      [("from", .str "en")]
      ⟨some "en", some "", some "", some "", some "", some ""⟩).2
      (by decide) rfl (by decide) rfl).1

/-- Claim C5: a remote response with a non-empty `errorCode` makes
`translate_text` fail with the message built from the template
`Translation failed: {errorMsg}` re-raised under the prefix
`Translation request failed: `, so the final message contains the remote
`errorMsg`; concretely, for errorCode 10001 with message `invalid appid`
the final error is
`Translation request failed: Translation failed: invalid appid`. -/
theorem C5_failure_mapping :
    (∀ (creds : NiuTransCredentials) (text fromL toL : String) (ts : Nat)
       (resp : HttpResponse) (fields : List (String × JVal)) (result : TransResponse),
       is_success resp.status = true → resp.jsonBody = some fields →
       parseTransResponse fields = .ok result → result.errorCode ≠ some "" →
       translate_text creds text fromL toL ts resp =
         .error ("Translation request failed: " ++
           ("Translation failed: " ++ pyStr result.errorMsg))) ∧
    (translate_text ⟨"a1", "k1"⟩ "hello" "en" "zh" 0
      ⟨200, some [("from", .str "en"), ("errorCode", .str "10001"),
                  ("errorMsg", .str "invalid appid")]⟩ =
      .error "Translation request failed: Translation failed: invalid appid" ∧
    "Translation request failed: Translation failed: invalid appid" =
      "Translation request failed: Translation failed: " ++ "invalid appid" ++ "") := by
  constructor
  · intro creds text fromL toL ts resp fields result hst hjson hpar hne
    rw [translate_success_case hst hjson hpar, if_pos hne]
  · exact ⟨by decide, by decide⟩

/-- Witness for the universal part of C5 at the concrete failing
response. -/
theorem C5_witness :
    translate_text ⟨"a1", "k1"⟩ "hello" "en" "zh" 0
      ⟨200, some [("from", .str "en"), ("errorCode", .str "10001"),
                  ("errorMsg", .str "invalid appid")]⟩ =
      .error ("Translation request failed: " ++
        ("Translation failed: " ++ pyStr (some "invalid appid"))) :=
  C5_failure_mapping.1 ⟨"a1", "k1"⟩ "hello" "en" "zh" 0
    ⟨200, some [("from", .str "en"), ("errorCode", .str "10001"),
                ("errorMsg", .str "invalid appid")]⟩
    [("from", .str "en"), ("errorCode", .str "10001"), ("errorMsg", .str "invalid appid")]
    ⟨some "en", some "", some "", some "", some "10001", some "invalid appid"⟩
    (by decide) rfl (by decide) (by decide)

/-- Claim C6: on every failure path inside `verify` (non-2xx status,
JSON decode failure, schema validation failure, or non-empty errorCode)
the raised error message is exactly the prefix
`Credential verification failed: ` followed by the underlying cause's
message, and on success `verify` returns nothing. -/
theorem C6_verify_wrapping (creds : NiuTransCredentials) (ts : Nat) (resp : HttpResponse) :
    (is_success resp.status = false →
      verify creds ts resp =
        .error ("Credential verification failed: " ++ httpStatusMessage resp.status)) ∧
    (is_success resp.status = true → resp.jsonBody = none →
      verify creds ts resp =
        .error ("Credential verification failed: " ++ jsonDecodeMessage)) ∧
    (∀ fields e, is_success resp.status = true → resp.jsonBody = some fields →
      parseTransResponse fields = .error e →
      verify creds ts resp = .error ("Credential verification failed: " ++ e)) ∧
    (∀ fields result, is_success resp.status = true → resp.jsonBody = some fields →
      parseTransResponse fields = .ok result → result.errorCode ≠ some "" →
      verify creds ts resp =
        .error ("Credential verification failed: " ++
          ("Error code: " ++ pyStr result.errorCode ++ ", message: " ++
            pyStr result.errorMsg))) ∧
    (∀ fields result, is_success resp.status = true → resp.jsonBody = some fields →
      parseTransResponse fields = .ok result → result.errorCode = some "" →
      verify creds ts resp = .ok ()) := by
  refine ⟨fun hst => verify_status_error hst,
          fun hst hjson => verify_json_error hst hjson,
          fun fields e hst hjson hpar => verify_parse_error hst hjson hpar,
          fun fields result hst hjson hpar hne => ?_,
          fun fields result hst hjson hpar hcode => ?_⟩
  · rw [verify_success_case hst hjson hpar, if_pos hne]
  · have hne : ¬ result.errorCode ≠ some "" := by
      rw [hcode]
      exact fun hcontra => hcontra rfl
    rw [verify_success_case hst hjson hpar, if_neg hne]

/-- Witness for C6: the non-2xx branch at status 500, and the success
branch at a concrete valid response. -/
theorem C6_witness :
    verify ⟨"a1", "k1"⟩ 0 ⟨500, some [("from", .str "en")]⟩ =
      .error ("Credential verification failed: " ++ httpStatusMessage 500) ∧
    verify ⟨"a1", "k1"⟩ 0 ⟨204, some [("from", .str "en")]⟩ = .ok () := by
  constructor
  · exact (C6_verify_wrapping ⟨"a1", "k1"⟩ 0 ⟨500, some [("from", .str "en")]⟩).1 (by decide)
  · exact (C6_verify_wrapping ⟨"a1", "k1"⟩ 0 ⟨204, some [("from", .str "en")]⟩).2.2.2.2
      [("from", .str "en")]
      ⟨some "en", some "", some "", some "", some "", some ""⟩
      (by decide) rfl (by decide) rfl

/-- Claim C7: the `from` parameter sent over the wire (and included in the
signed parameter map) is the literal `from_language`, so it is the empty
string for auto-detect calls, while the structured record displays `auto`
in that case and the literal `from_language` when it is non-empty. -/
theorem C7_auto_display (creds : NiuTransCredentials)
    (text fromL toL : String) (ts : Nat) :
    (translate_data creds text fromL toL ts =
      [("from", fromL), ("to", toL), ("appId", creds.app_id),
       ("timestamp", toString ts), ("srcText", text)]) ∧
    (translate_wire_data creds text fromL toL ts =
      [("from", fromL), ("to", toL), ("appId", creds.app_id),
       ("timestamp", toString ts), ("srcText", text),
       ("authStr", generate_auth_str creds (translate_data creds text fromL toL ts))]) ∧
    (∀ resp r rest, fromL = "" →
      translate_text creds text fromL toL ts resp = .ok (.record r :: rest) →
      r.source_language = "auto") ∧
    (∀ resp r rest, fromL ≠ "" →
      translate_text creds text fromL toL ts resp = .ok (.record r :: rest) →
      r.source_language = fromL) := by
  refine ⟨rfl, rfl, ?_, ?_⟩
  · intro resp r rest hemp h
    obtain ⟨result, _, _, _, hout⟩ := translate_text_ok_shape h
    have hr : r = { translated_text := result.tgtText
                    source_language := if fromL = "" then "auto" else fromL
                    target_language := toL
                    original_text := text
                    error_code := result.errorCode
                    error_msg := result.errorMsg } := by
      have := List.head_eq_of_cons_eq hout
      exact Emission.record.inj this
    rw [hr]
    simp [hemp]
  · intro resp r rest hne h
    obtain ⟨result, _, _, _, hout⟩ := translate_text_ok_shape h
    have hr : r = { translated_text := result.tgtText
                    source_language := if fromL = "" then "auto" else fromL
                    target_language := toL
                    original_text := text
                    error_code := result.errorCode
                    error_msg := result.errorMsg } := by
      have := List.head_eq_of_cons_eq hout
      exact Emission.record.inj this
    rw [hr]
    simp [hne]

/-- Witness for C7: the auto-detect display at a concrete call with empty
source language. -/
theorem C7_witness :
    TransRecord.source_language ⟨some "你好", "auto", "zh", "hi", some "", some ""⟩ = "auto" :=
  (C7_auto_display ⟨"a1", "k1"⟩ "hi" "" "zh" 0).2.2.1
    ⟨200, some [("from", .str "en"), ("tgtText", .str "你好")]⟩
    ⟨some "你好", "auto", "zh", "hi", some "", some ""⟩
    [.text (some "你好")] rfl (by decide)

theorem translate_parse_error {creds : NiuTransCredentials}
    {text fromL toL : String} {ts : Nat} {resp : HttpResponse}
    {fields : List (String × JVal)} {e : String}
    (hst : is_success resp.status = true) (hjson : resp.jsonBody = some fields)
    (hpar : parseTransResponse fields = .error e) :
    translate_text creds text fromL toL ts resp =
      .error ("Translation request failed: " ++ e) := by
  unfold translate_text
  rw [raise_for_status_success hst]
  dsimp only
  rw [response_json_some hjson]
  dsimp only
  rw [hpar]

/-- Claim C8: signing is order-independent and deterministic — two
parameter maps holding the same key-value pairs in any insertion order
(dict keys are unique) sign to identical strings, and repeated signing of
the same map gives the same result. -/
theorem C8_signing_order_independent (creds : NiuTransCredentials)
    (p1 p2 : List (String × String)) (hperm : p1.Perm p2)
    (hnd : (p1.map Prod.fst).Nodup) :
    generate_auth_str creds p1 = generate_auth_str creds p2 ∧
    generate_auth_str creds p1 = generate_auth_str creds p1 := by
  refine ⟨?_, rfl⟩
  unfold generate_auth_str param_str
  rw [sorted_params_eq_of_perm creds hperm hnd]

/-- Witness for C8 at the two insertion orders of the map
`to ↦ zh, from ↦ en`. -/
theorem C8_witness :
    generate_auth_str ⟨"a1", "k1"⟩ [("to", "zh"), ("from", "en")] =
      generate_auth_str ⟨"a1", "k1"⟩ [("from", "en"), ("to", "zh")] :=
  (C8_signing_order_independent ⟨"a1", "k1"⟩ [("to", "zh"), ("from", "en")]
    [("from", "en"), ("to", "zh")]
    (List.Perm.swap ("from", "en") ("to", "zh") []) (by decide)).1

/-- Claim C9: response parsing requires the `from` field — parsing fails
exactly when the `from` key is absent — while each other field
(`to`, `tgtText`, `srcText`, `errorCode`, `errorMsg`) may be absent and
then defaults to the empty string. -/
theorem C9_from_required (fields : List (String × JVal)) :
    (lookupField fields "from" = none →
      parseTransResponse fields = .error missingFromMsg) ∧
    (∀ e, parseTransResponse fields = .error e → lookupField fields "from" = none) ∧
    (∀ v, lookupField fields "from" = some v →
      parseTransResponse fields = .ok
        { from_ := jvalToOpt v
          to_ := parseOptField fields "to"
          tgtText := parseOptField fields "tgtText"
          srcText := parseOptField fields "srcText"
          errorCode := parseOptField fields "errorCode"
          errorMsg := parseOptField fields "errorMsg" }) ∧
    (∀ r, parseTransResponse fields = .ok r →
      (lookupField fields "to" = none → r.to_ = some "") ∧
      (lookupField fields "tgtText" = none → r.tgtText = some "") ∧
      (lookupField fields "srcText" = none → r.srcText = some "") ∧
      (lookupField fields "errorCode" = none → r.errorCode = some "") ∧
      (lookupField fields "errorMsg" = none → r.errorMsg = some "")) := by
  refine ⟨?_, ?_, ?_, ?_⟩
  · intro h
    unfold parseTransResponse
    rw [h]
  · intro e he
    unfold parseTransResponse at he
    split at he
    · assumption
    · exact Except.noConfusion he
  · intro v hv
    unfold parseTransResponse
    rw [hv]
  · intro r hr
    unfold parseTransResponse at hr
    split at hr
    · exact Except.noConfusion hr
    · have hrec := Except.ok.inj hr
      refine ⟨?_, ?_, ?_, ?_, ?_⟩ <;> intro habs <;> rw [← hrec] <;>
        unfold parseOptField <;> rw [habs]

/-- Witness for C9 at the minimal body containing only `from`: parsing
succeeds and every optional field defaults to the empty string. -/
theorem C9_witness :
    parseTransResponse [("from", .str "en")] = .ok
      { from_ := jvalToOpt (.str "en")
        to_ := parseOptField [("from", .str "en")] "to"
        tgtText := parseOptField [("from", .str "en")] "tgtText"
        srcText := parseOptField [("from", .str "en")] "srcText"
        errorCode := parseOptField [("from", .str "en")] "errorCode"
        errorMsg := parseOptField [("from", .str "en")] "errorMsg" } :=
  (C9_from_required [("from", .str "en")]).2.2.1 (.str "en") rfl

/-- Claim C10 (implicit invariant): every structured record that
`translate_text` actually emits has an empty `error_code` — any parsed
errorCode other than `""` (including a JSON `null`, which parses to the
non-string `None`) raises before the first yield, so no record carrying a
non-empty code is ever emitted. -/
theorem C10_emitted_error_code_empty :
    (∀ (creds : NiuTransCredentials) (text fromL toL : String) (ts : Nat)
       (resp : HttpResponse) (out : List Emission) (r : TransRecord),
       translate_text creds text fromL toL ts resp = .ok out →
       Emission.record r ∈ out → r.error_code = some "") ∧
    (∀ (creds : NiuTransCredentials) (text fromL toL : String) (ts status : Nat)
       (fields : List (String × JVal)),
       lookupField fields "errorCode" = some JVal.null →
       ∀ out, translate_text creds text fromL toL ts ⟨status, some fields⟩ ≠ .ok out) := by
  constructor
  · intro creds text fromL toL ts resp out r h hmem
    obtain ⟨result, _, _, hcode, hout⟩ := translate_text_ok_shape h
    rw [hout] at hmem
    rcases List.mem_cons.mp hmem with hr | hr
    · rw [Emission.record.inj hr]
      exact hcode
    · rcases List.mem_cons.mp hr with hr' | hr'
      · exact Emission.noConfusion hr'
      · exact absurd hr' (List.not_mem_nil _)
  · intro creds text fromL toL ts status fields hnull out habs
    rcases Bool.eq_false_or_eq_true (is_success status) with hst | hst
    · obtain ⟨result, hok, _, hcode, _⟩ := translate_text_ok_shape habs
      cases hfrom : lookupField fields "from" with
      | none =>
        have := (C9_from_required fields).1 hfrom
        rw [translate_parse_error hok rfl this] at habs
        exact Except.noConfusion habs
      | some v =>
        have hpar := (C9_from_required fields).2.2.1 v hfrom
        obtain ⟨result', _, hfieldseq, hcode', _⟩ := translate_text_ok_shape habs
        obtain ⟨fields', hsome, hpar'⟩ := hfieldseq
        have hfe : fields' = fields := by
          exact (Option.some.inj hsome).symm
        rw [hfe] at hpar'
        rw [hpar] at hpar'
        have hres : result' = _ := (Except.ok.inj hpar').symm
        rw [hres] at hcode'
        have : parseOptField fields "errorCode" = none := by
          unfold parseOptField
          rw [hnull]
          rfl
        rw [show TransResponse.errorCode
            { from_ := jvalToOpt v
              to_ := parseOptField fields "to"
              tgtText := parseOptField fields "tgtText"
              srcText := parseOptField fields "srcText"
              errorCode := parseOptField fields "errorCode"
              errorMsg := parseOptField fields "errorMsg" } =
            parseOptField fields "errorCode" from rfl, this] at hcode'
        exact Option.noConfusion hcode'
    · rw [translate_status_error hst] at habs
      exact Except.noConfusion habs

/-- Witness for C10 at a concrete successful emission. -/
theorem C10_witness :
    TransRecord.error_code ⟨some "你好", "en", "zh", "hello", some "", some ""⟩ = some "" :=
  C10_emitted_error_code_empty.1 ⟨"a1", "k1"⟩ "hello" "en" "zh" 0
    ⟨200, some [("from", .str "en"), ("to", .str "zh"), ("tgtText", .str "你好"),
                ("errorCode", .str ""), ("errorMsg", .str "")]⟩
    [.record ⟨some "你好", "en", "zh", "hello", some "", some ""⟩, .text (some "你好")]
    ⟨some "你好", "en", "zh", "hello", some "", some ""⟩
    (by decide) (by decide)
